import Mathlib

/-
Verification of the codot synchronization engine against its specification.

Python strings are embedded as `List Char`; Python dicts of strings as
functions `List Char → Option (List Char)` (insertion order is irrelevant to
every property treated here, which only observes dict lookup).  Fallible
operations are embedded with `Except`.  File systems are embedded as
functions from paths to optional contents / metadata.  Sources embedded:
`codot/utils.py`, `codot/container.py`, `codot/user_files.py`,
`codot/commands/sync.py`, `codot/commands/role.py`.
-/

namespace Codot

/-- A Python `str`, embedded as a list of characters. -/
abbrev Str := List Char

/-- A Python `dict` of strings, observed through lookup. -/
abbrev Dict := Str → Option Str

/-- The empty dict. -/
def emptyDict : Dict := fun _ => none

/-- Python dict item assignment `d[k] = v`, observed through lookup. -/
def dictSet (d : Dict) (k v : Str) : Dict :=
  fun q => if q = k then some v else d q

/-- Python `acc.update(d)`: keys of `d` overwrite keys of `acc`. -/
def dictUpdate (acc d : Dict) : Dict :=
  fun k =>
    match d k with
    | some v => some v
    | none => acc k

/-- The characters Python `str.strip()` removes (the whitespace class). -/
def isPySpace (c : Char) : Bool :=
  c = ' ' || c = '\t' || c = '\n' || c = '\r' || c = '\x0b' || c = '\x0c'

/-- Python `str.strip()`: drop leading and trailing whitespace. -/
def pyStrip (s : Str) : Str :=
  ((s.dropWhile isPySpace).reverse.dropWhile isPySpace).reverse

/-- Python truthiness of an optional string (`None` and the empty string are
falsy, every other string is truthy). -/
def pyTruthy : Option Str → Bool
  | none => false
  | some s => s ≠ []

/-- The left brace character, written by code point. -/
def openBrace : Char := '\x7b'

/-- The right brace character, written by code point. -/
def closeBrace : Char := '\x7d'

/-- The apostrophe character, written by code point. -/
def apostChar : Char := '\x27'

/-- From `codot/utils.py`, `rm_ext`: remove `sub` from the end of `orig` if
`orig` ends with it and `sub` is non-empty (`orig_string[:-len(substring)]`). -/
def rm_ext (orig sub : Str) : Str :=
  if sub ≠ [] ∧ sub <:+ orig then orig.take (orig.length - sub.length) else orig

/-- From `codot/utils.py`, `add_ext`: append `sub` to the end of `orig` if it
is not already there (`rm_ext(orig_string, substring) + substring`). -/
def add_ext (orig sub : Str) : Str :=
  if sub ≠ [] then rm_ext orig sub ++ sub else orig

/-- `codot.CONFIG_EXT`. -/
def CONFIG_EXT : Str := ".conf".data

/-- `os.path.join(a, b)` for a relative `b`: join with a path separator. -/
def pathJoin (a b : Str) : Str := a ++ "/".data ++ b

/-- From `codot/container.py`, `ConfigFile.COMMENT_REGEX` applied via
`search`: the line consists of leading whitespace followed by `#`
(the anchored regex matches exactly when the first character left after
dropping leading whitespace is `#`). -/
def isCommentLine (line : Str) : Bool :=
  (line.dropWhile isPySpace).head? == some '#'

/-- The part of the line before the first separator `=`
(`line.partition(self.SEPARATOR)[0]`). -/
def sepKey (line : Str) : Str := line.takeWhile (fun c => c != '=')

/-- The part of the line after the first separator `=`
(`line.partition(self.SEPARATOR)[2]`). -/
def sepVal (line : Str) : Str := (line.dropWhile (fun c => c != '=')).drop 1

/-- From `codot/container.py`, the loop body of `ConfigFile.read`: skip the
line if it is a comment or has no separator, else split on the first `=`,
strip both halves, and assign key to value. -/
def ConfigFile.readLine (d : Dict) (line : Str) : Dict :=
  if ¬ isCommentLine line ∧ '=' ∈ line then
    dictSet d (pyStrip (sepKey line)) (pyStrip (sepVal line))
  else d

/-- From `codot/container.py`, the loop of `ConfigFile.read` over the lines of
an open file, starting from the dict accumulated so far. -/
def ConfigFile.readLines (d : Dict) (ls : List Str) : Dict :=
  ls.foldl ConfigFile.readLine d

/-- The error raised by `ConfigFile.read` when the file cannot be opened. -/
inductive FileParseError
  | cannotOpen
deriving DecidableEq

/-- From `codot/container.py`, `ConfigFile.read` against a file system: if
opening the path fails (`OSError`), raise `FileParseError`; otherwise fold
the key-value parser over the lines. -/
def ConfigFile.read (fs : Str → Option (List Str)) (p : Str) :
    Except FileParseError Dict :=
  match fs p with
  | none => Except.error FileParseError.cannotOpen
  | some ls => Except.ok (ConfigFile.readLines emptyDict ls)

/-- The settings key `IdentifierFormat`. -/
def IdentifierFormatKey : Str := "IdentifierFormat".data

/-- The settings key `OverwriteAlways`. -/
def OverwriteAlwaysKey : Str := "OverwriteAlways".data

/-- The built-in default identifier format, the six characters brace brace
percent s brace brace. -/
def defaultIdentifierFormat : Str :=
  [openBrace, openBrace, '%', 's', closeBrace, closeBrace]

/-- From `codot/container.py`, `ProgramConfigFile._defaults`. -/
def ProgramConfigFile.defaults : Dict := fun k =>
  if k = IdentifierFormatKey then some defaultIdentifierFormat
  else if k = OverwriteAlwaysKey then some "no".data
  else none

/-- From `codot/container.py`, the `ProgramConfigFile.vals` getter: the raw
value if the key is set, else the built-in default if one exists, else
`None`. -/
def ProgramConfigFile.vals (raw : Dict) (k : Str) : Option Str :=
  match raw k with
  | some v => some v
  | none => ProgramConfigFile.defaults k

/-- From `codot/commands/sync.py` lines 59-62: the computation of
`overwrite_source`, which tests the Python truthiness of
`self.cfg_file.vals["OverwriteAlways"]` (a string). -/
def overwriteSource (overwrite : Bool) (raw : Dict) : Bool :=
  overwrite || pyTruthy (ProgramConfigFile.vals raw OverwriteAlwaysKey)

/-- A character of the regex class `[\w-]`. -/
def isWordChar (c : Char) : Bool := c.isAlphanum || c = '_' || c = '-'

/-- Backtracking for the greedy group `([\w-]+)`: try runs of word
characters of length `n`, `n-1`, ..., `1` until the literal `post` matches
right after the run; return the captured name and the rest of the input
after the whole match. -/
def tryLens (post s₁ : Str) : Nat → Option (Str × Str)
  | 0 => none
  | n + 1 =>
    if post.isPrefixOf (s₁.drop (n + 1)) then
      some (s₁.take (n + 1), (s₁.drop (n + 1)).drop post.length)
    else tryLens post s₁ n

/-- Match the compiled identifier regex (literal `pre`, then `([\w-]+)`,
then literal `post`) at the start of `s`. -/
def matchAt (pre post s : Str) : Option (Str × Str) :=
  if pre.isPrefixOf s then
    tryLens post (s.drop pre.length)
      ((s.drop pre.length).takeWhile isWordChar).length
  else none

/-- Fuel-indexed scan implementing `identifier_regex.findall(line)`: at each
position try the match; on success emit the captured name and continue after
the match, on failure advance one character.  Every step consumes at least
one character, so fuel equal to the length of the string is exact. -/
def findIdsF (pre post : Str) : Nat → Str → List Str
  | 0, _ => []
  | fuel + 1, s =>
    match matchAt pre post s with
    | some (name, rest) => name :: findIdsF pre post fuel rest
    | none =>
      match s with
      | [] => []
      | _ :: t => findIdsF pre post fuel t

/-- `identifier_regex.findall(line)` where the identifier format is
`pre ++ "%s" ++ post`, all of it literal after `re.escape`. -/
def findIds (pre post s : Str) : List Str := findIdsF pre post s.length s

/-- Fuel-indexed implementation of Python `str.replace` for a non-empty
pattern: replace every non-overlapping occurrence of `pat` in `s` by `val`,
scanning left to right. -/
def replaceAllF (pat val : Str) : Nat → Str → Str
  | 0, s => s
  | fuel + 1, s =>
    if pat ≠ [] ∧ pat.isPrefixOf s then
      val ++ replaceAllF pat val fuel (s.drop pat.length)
    else
      match s with
      | [] => []
      | c :: t => c :: replaceAllF pat val fuel t

/-- Python `s.replace(pat, val)` for the non-empty patterns used by the
substitution engine. -/
def replaceAll (s pat val : Str) : Str := replaceAllF pat val s.length s

/-- The message appended to `input_errors` in `codot/commands/sync.py` for an
identifier that is in no enabled config file. -/
def errMsg (name : Str) : Str :=
  "the identifier ".data ++ [apostChar] ++ name ++ [apostChar] ++
    " is not in any enabled config file".data

/-- From `codot/commands/sync.py` lines 124-135, the per-line body of the
substitution engine: for each identifier found on the original line, record
an error if it is missing from the config values, else replace every
occurrence of the expanded token on the evolving line with its value.
Returns the rewritten line and the errors contributed by this line. -/
def renderLine (cv : Dict) (pre post line : Str) : Str × List Str :=
  (findIds pre post line).foldl
    (fun acc name =>
      match cv name with
      | none => (acc.1, acc.2 ++ [errMsg name])
      | some v => (replaceAll acc.1 (pre ++ name ++ post) v, acc.2))
    (line, [])

/-- Rendering of one template file, line by line: the concatenation of the
rewritten lines written to the temp file, and the accumulated errors. -/
def renderLines (cv : Dict) (pre post : Str) (ls : List Str) : Str × List Str :=
  ls.foldl
    (fun acc line =>
      let r := renderLine cv pre post line
      (acc.1 ++ r.1, acc.2 ++ r.2))
    ([], [])

/-- From `codot/commands/sync.py` lines 107-138: render every eligible pair,
staging outputs and accumulating `input_errors` across the whole batch. -/
def syncRender (cv : Dict) (pre post : Str) (pairs : List (Str × List Str)) :
    List (Str × Str) × List Str :=
  pairs.foldl
    (fun acc p =>
      let r := renderLines cv pre post p.2
      (acc.1 ++ [(p.1, r.1)], acc.2 ++ r.2))
    ([], [])

/-- From `codot/commands/sync.py` lines 96-101: fold the config dicts in
reverse priority order (the list is given highest priority first), so that
values from higher-priority files overwrite values from lower-priority
ones. -/
def syncConfigValues (configs : List Dict) : Dict :=
  configs.reverse.foldl dictUpdate emptyDict

/-- What the file system says about a template's source (target) path. -/
inductive TargetInfo
  | missing
  | file (mtime : Nat)
  | dir
deriving DecidableEq

/-- The errors `SyncCommand.main` can raise after locking. -/
inductive SyncError
  | statusError (msg : Str)
  | inputError (msgs : List Str)
deriving DecidableEq

/-- The `StatusError` message for a target path that is a directory. -/
def dirErrorMsg (p : Str) : Str :=
  "source file exists and is a directory: ".data ++ p

/-- From `codot/commands/sync.py` lines 66-85: walk the template files, raise
`StatusError` if a target path is a directory, treat a missing target as
modification time 0, and keep the pair when the target's mtime is at most
`last_sync` or overwriting is forced. -/
def discoverPairs (home : Str) (lastSync : Nat) (ow : Bool)
    (target : Str → TargetInfo) (templates : List (Str × List Str)) :
    Except SyncError (List (Str × List Str)) :=
  templates.foldlM
    (fun acc t =>
      match target (home ++ t.1) with
      | TargetInfo.dir =>
        Except.error (SyncError.statusError (dirErrorMsg (home ++ t.1)))
      | TargetInfo.file m =>
        Except.ok
          (if m ≤ lastSync ∨ ow = true then acc ++ [(home ++ t.1, t.2)] else acc)
      | TargetInfo.missing =>
        Except.ok
          (if 0 ≤ lastSync ∨ ow = true then acc ++ [(home ++ t.1, t.2)] else acc))
    []

/-- From `codot/commands/sync.py`, `SyncCommand.main` after locking and
reading settings: compute `overwrite_source`, discover and filter the
template pairs, render them all, and either raise `InputError` with every
accumulated message (publishing nothing) or publish every staged pair.  The
`Except.ok` value is the list of (target path, new content) moves performed;
`cv`, `pre` and `post` are the merged config values and the identifier
format split at its `%s` marker. -/
def SyncCommand.main (overwrite : Bool) (raw : Dict) (lastSync : Nat)
    (home : Str) (target : Str → TargetInfo)
    (templates : List (Str × List Str)) (cv : Dict) (pre post : Str) :
    Except SyncError (List (Str × Str)) :=
  let ow := overwriteSource overwrite raw
  match discoverPairs home lastSync ow target templates with
  | Except.error e => Except.error e
  | Except.ok pairs =>
    let r := syncRender cv pre post pairs
    if r.2 ≠ [] then Except.error (SyncError.inputError r.2) else Except.ok r.1

/-- The pairs `discoverPairs` keeps when no target path is a directory
(specification-side restatement used to phrase the all-or-nothing claim). -/
def eligiblePairs (home : Str) (lastSync : Nat) (ow : Bool)
    (target : Str → TargetInfo) (templates : List (Str × List Str)) :
    List (Str × List Str) :=
  templates.foldl
    (fun acc t =>
      match target (home ++ t.1) with
      | TargetInfo.dir => acc
      | TargetInfo.file m =>
        if m ≤ lastSync ∨ ow = true then acc ++ [(home ++ t.1, t.2)] else acc
      | TargetInfo.missing =>
        if 0 ≤ lastSync ∨ ow = true then acc ++ [(home ++ t.1, t.2)] else acc)
    []

/-- The identifiers referenced by the given pairs but absent from the config
values, in the order the substitution engine meets them. -/
def missingNames (cv : Dict) (pre post : Str)
    (pairs : List (Str × List Str)) : List Str :=
  pairs.flatMap (fun p =>
    p.2.flatMap (fun l =>
      (findIds pre post l).filter (fun n => (cv n).isNone)))

/-- From `codot/user_files.py`, `PriorityFile.get_config_names`: strip each
line, drop blank lines, and remove the config extension from each name. -/
def PriorityFile.get_config_names (ls : List Str) : List Str :=
  (ls.filter (fun l => pyStrip l != [])).map (fun l => rm_ext (pyStrip l) CONFIG_EXT)

/-- From `codot/user_files.py`, `UserFiles.get_configs` with `enabled_only`:
map each priority entry to a path under the config directory with the
extension added, then keep only the paths that the recursive scan of the
config directory found (`diskPaths`, in scan order). -/
def UserFiles.get_configs (configDir : Str) (diskPaths : List Str)
    (names : List Str) : List Str :=
  (names.map (fun n => pathJoin configDir (add_ext n CONFIG_EXT))).filter
    (fun p => decide (p ∈ diskPaths))

/-- From `codot/user_files.py`, `UserFiles.get_config_values`: read the
enabled configs in reverse priority order, merging each file's values over
the accumulator so that higher-priority files win. -/
def UserFiles.get_config_values (fs : Str → Option (List Str))
    (configDir : Str) (diskPaths : List Str) (names : List Str) :
    Except FileParseError Dict :=
  (UserFiles.get_configs configDir diskPaths names).reverse.foldlM
    (fun acc p => (ConfigFile.read fs p).map (fun d => dictUpdate acc d))
    emptyDict

/-- From `codot/commands/role.py` lines 74-77: the names of the available
config files of a role, the directory entries that are regular files whose
name ends with the config extension.  A directory entry is a (name, is-file)
pair. -/
def roleConfigsOf (entries : List (Str × Bool)) : List Str :=
  (entries.filter (fun e => e.2 && CONFIG_EXT.isSuffixOf e.1)).map (fun e => e.1)

/-- The `InputError` message of `codot/commands/role.py` line 102. -/
def noSuchConfigMsg (cn : Str) : Str :=
  "no such config ".data ++ [apostChar] ++ cn ++ [apostChar] ++
    " in this role".data

/-- From `codot/commands/role.py` lines 43-46 and 99-109: normalize the given
config name by adding the extension, fail with `InputError` if it is not
among the role's config files, else point the role's selection symlink at
the variant file's path inside the role directory. -/
def RoleCommand.switch (entries : List (Str × Bool)) (rolePath : Str)
    (arg : Str) : Except Str Str :=
  let config_name := add_ext arg CONFIG_EXT
  if config_name ∈ roleConfigsOf entries then
    Except.ok (pathJoin rolePath config_name)
  else Except.error (noSuchConfigMsg config_name)

/-- The selection pointer after running the switch: the new link target on
success, the previous link state when `InputError` was raised (the exception
propagates before any file is touched). -/
def RoleCommand.switchFinalLink (entries : List (Str × Bool)) (rolePath : Str)
    (link : Option Str) (arg : Str) : Option Str :=
  match RoleCommand.switch entries rolePath arg with
  | Except.ok t => some t
  | Except.error _ => link

end Codot

namespace Codot

/- Helper lemmas. -/

lemma rm_ext_append (x e : Str) (he : e ≠ []) : rm_ext (x ++ e) e = x := by
  have hsuf : e <:+ x ++ e := ⟨x, rfl⟩
  rw [rm_ext, if_pos ⟨he, hsuf⟩, List.length_append, Nat.add_sub_cancel,
    List.take_left]

lemma rm_ext_of_not_suffix (s e : Str) (h : ¬ e <:+ s) : rm_ext s e = s := by
  rw [rm_ext, if_neg]
  intro hc
  exact h hc.2

lemma add_ext_of_ne (s e : Str) (he : e ≠ []) :
    add_ext s e = rm_ext s e ++ e := by
  rw [add_ext, if_pos he]

lemma dictSet_self (d : Dict) (k v : Str) : dictSet d k v k = some v := by
  simp [dictSet]

lemma sepKey_split (k rest : Str) (hk : '=' ∉ k) :
    sepKey (k ++ '=' :: rest) = k := by
  induction k with
  | nil => simp [sepKey]
  | cons c t ih =>
    have hc : (c != '=') = true := by
      simp only [bne_iff_ne]
      intro h
      exact hk (by simp [h])
    have ht : '=' ∉ t := fun h => hk (List.mem_cons_of_mem _ h)
    simp only [sepKey, List.cons_append, List.takeWhile_cons, hc, if_true]
    have := ih ht
    simp only [sepKey] at this
    simp [this]

lemma sepVal_split (k rest : Str) (hk : '=' ∉ k) :
    sepVal (k ++ '=' :: rest) = rest := by
  induction k with
  | nil => simp [sepVal]
  | cons c t ih =>
    have hc : (c != '=') = true := by
      simp only [bne_iff_ne]
      intro h
      exact hk (by simp [h])
    have ht : '=' ∉ t := fun h => hk (List.mem_cons_of_mem _ h)
    have := ih ht
    simp only [sepVal] at this ⊢
    simp [List.dropWhile_cons, hc, this]

end Codot

namespace Codot

/-- C9: for every string `s` and non-empty extension `e`, `add_ext s e` ends
with `e`; `add_ext` is idempotent; and `rm_ext (add_ext s e) e = rm_ext s e`,
so a name given with or without the extension normalizes to the same file
name. -/
theorem c9_ext_normalization (s e : Str) (he : e ≠ []) :
    (e <:+ add_ext s e) ∧
    add_ext (add_ext s e) e = add_ext s e ∧
    rm_ext (add_ext s e) e = rm_ext s e := by
  rw [add_ext_of_ne s e he]
  refine ⟨⟨rm_ext s e, rfl⟩, ?_, ?_⟩
  · rw [add_ext_of_ne _ e he, rm_ext_append _ e he]
  · rw [rm_ext_append _ e he]

/-- Witness for C9 at `s = "zenburn"`, `e = ".conf"`. -/
theorem c9_ext_normalization_witness :
    (".conf".data ≠ ([] : List Char)) ∧
    ((".conf".data <:+ Codot.add_ext "zenburn".data ".conf".data) ∧
      Codot.add_ext (Codot.add_ext "zenburn".data ".conf".data) ".conf".data =
        Codot.add_ext "zenburn".data ".conf".data ∧
      Codot.rm_ext (Codot.add_ext "zenburn".data ".conf".data) ".conf".data =
        Codot.rm_ext "zenburn".data ".conf".data) :=
  ⟨by decide, c9_ext_normalization "zenburn".data ".conf".data (by decide)⟩

/-- C8: the key-value reader skips a line whose first non-whitespace
character is `#`; silently ignores a line with no separator; splits any
other line on the *first* `=`, trims both halves with `strip`, and assigns
the key to the value string unmodified; and a later line for the same key
overwrites an earlier one, whatever was read before. -/
theorem c8_key_value_reader :
    (∀ (d : Dict) (line : Str), isCommentLine line = true →
      ConfigFile.readLine d line = d) ∧
    (∀ (d : Dict) (line : Str), '=' ∉ line →
      ConfigFile.readLine d line = d) ∧
    (∀ (d : Dict) (k rest : Str), isCommentLine (k ++ '=' :: rest) = false →
      '=' ∉ k →
      ConfigFile.readLine d (k ++ '=' :: rest) =
        dictSet d (pyStrip k) (pyStrip rest)) ∧
    (∀ (d : Dict) (ls : List Str) (k rest : Str),
      isCommentLine (k ++ '=' :: rest) = false → '=' ∉ k →
      ConfigFile.readLines d (ls ++ [k ++ '=' :: rest]) (pyStrip k) =
        some (pyStrip rest)) := by
  have hsplit : ∀ (d : Dict) (k rest : Str),
      isCommentLine (k ++ '=' :: rest) = false → '=' ∉ k →
      ConfigFile.readLine d (k ++ '=' :: rest) =
        dictSet d (pyStrip k) (pyStrip rest) := by
    intro d k rest hcom hk
    have hmem : '=' ∈ k ++ '=' :: rest := by simp
    rw [ConfigFile.readLine, if_pos ⟨by simp [hcom], hmem⟩,
      sepKey_split k rest hk, sepVal_split k rest hk]
  refine ⟨?_, ?_, hsplit, ?_⟩
  · intro d line hcom
    rw [ConfigFile.readLine, if_neg]
    intro hc
    exact hc.1 hcom
  · intro d line hneq
    rw [ConfigFile.readLine, if_neg]
    intro hc
    exact hneq hc.2
  · intro d ls k rest hcom hk
    rw [ConfigFile.readLines, List.foldl_append]
    simp only [List.foldl_cons, List.foldl_nil]
    rw [hsplit _ k rest hcom hk, dictSet_self]

/-- Witness for C8: a comment line and a separator-free line leave the dict
unchanged; `"a = b "` maps key `"a"` to `"b"`; and a later `"a=2"` line
overwrites an earlier `"a=1"` line. -/
theorem c8_key_value_reader_witness :
    ConfigFile.readLine emptyDict "  # a=b".data = emptyDict ∧
    ConfigFile.readLine emptyDict "plain prose".data = emptyDict ∧
    ConfigFile.readLine emptyDict ("a ".data ++ '=' :: " b ".data) =
      dictSet emptyDict (pyStrip "a ".data) (pyStrip " b ".data) ∧
    ConfigFile.readLines emptyDict
        (["a=1".data] ++ ["a".data ++ '=' :: "2".data]) (pyStrip "a".data) =
      some (pyStrip "2".data) :=
  ⟨c8_key_value_reader.1 emptyDict "  # a=b".data (by decide),
   c8_key_value_reader.2.1 emptyDict "plain prose".data (by decide),
   c8_key_value_reader.2.2.1 emptyDict "a ".data " b ".data (by decide)
     (by decide),
   c8_key_value_reader.2.2.2 emptyDict ["a=1".data] "a".data "2".data
     (by decide) (by decide)⟩

/-- C10: reading a settings value through `ProgramConfigFile.vals` is total:
it returns the raw string from the file when the key is set, the built-in
default (the brace-percent-s format for `IdentifierFormat`, `"no"` for
`OverwriteAlways`) when the key is unset, and `None` for any other unset
key. -/
theorem c10_program_vals :
    (∀ (raw : Dict) (k v : Str), raw k = some v →
      ProgramConfigFile.vals raw k = some v) ∧
    (∀ raw : Dict, raw IdentifierFormatKey = none →
      ProgramConfigFile.vals raw IdentifierFormatKey =
        some defaultIdentifierFormat) ∧
    (∀ raw : Dict, raw OverwriteAlwaysKey = none →
      ProgramConfigFile.vals raw OverwriteAlwaysKey = some "no".data) ∧
    (∀ (raw : Dict) (k : Str), raw k = none → k ≠ IdentifierFormatKey →
      k ≠ OverwriteAlwaysKey → ProgramConfigFile.vals raw k = none) := by
  refine ⟨?_, ?_, ?_, ?_⟩
  · intro raw k v h
    simp [ProgramConfigFile.vals, h]
  · intro raw h
    simp [ProgramConfigFile.vals, h, ProgramConfigFile.defaults]
  · intro raw h
    have : IdentifierFormatKey ≠ OverwriteAlwaysKey := by decide
    simp [ProgramConfigFile.vals, h, ProgramConfigFile.defaults,
      Ne.symm this]
  · intro raw k h hif hoa
    simp [ProgramConfigFile.vals, h, ProgramConfigFile.defaults, hif, hoa]

/-- Witness for C10 on a dict that sets only `OverwriteAlways`. -/
theorem c10_program_vals_witness :
    ProgramConfigFile.vals
        (dictSet emptyDict OverwriteAlwaysKey "yes".data) OverwriteAlwaysKey =
      some "yes".data ∧
    ProgramConfigFile.vals emptyDict IdentifierFormatKey =
      some defaultIdentifierFormat ∧
    ProgramConfigFile.vals emptyDict OverwriteAlwaysKey = some "no".data ∧
    ProgramConfigFile.vals emptyDict "LastSync".data = none :=
  ⟨c10_program_vals.1 (dictSet emptyDict OverwriteAlwaysKey "yes".data)
     OverwriteAlwaysKey "yes".data (by decide),
   c10_program_vals.2.1 emptyDict rfl,
   c10_program_vals.2.2.1 emptyDict rfl,
   c10_program_vals.2.2.2 emptyDict "LastSync".data rfl (by decide)
     (by decide)⟩

/-- C2 (code bug): with the overwrite flag false and `OverwriteAlways` unset
(so `vals` yields its default, the string `"no"`), `sync.py` line 59 tests
the Python truthiness of that *string*, which is true because `"no"` is
non-empty; `overwrite_source` therefore comes out true and a target whose
modification time 1 exceeds `last_sync = 0` is still overwritten, against
the claim, the command's docstring and `test_overwrite_source_files`. -/
theorem c2_staleness_code_bug :
    ProgramConfigFile.vals emptyDict OverwriteAlwaysKey = some "no".data ∧
    overwriteSource false emptyDict = true ∧
    SyncCommand.main false emptyDict 0 "~/".data (fun _ => TargetInfo.file 1)
        [("f".data, ["x\n".data])] emptyDict
        [openBrace, openBrace] [closeBrace, closeBrace] =
      Except.ok [("~/f".data, "x\n".data)] :=
  ⟨rfl, rfl, rfl⟩

/-- C4 (code bug): a template whose re-rooted target path does not exist is
given modification time 0 by `sync.py` lines 74-81, passes the staleness
test, is rendered, and is then published: the sync returns a move that
creates the missing target file, against the claim and
`test_missing_source_files`. -/
theorem c4_missing_target_code_bug :
    SyncCommand.main false emptyDict 0 "~/".data (fun _ => TargetInfo.missing)
        [("f".data,
          [[openBrace, openBrace] ++ "A".data ++ [closeBrace, closeBrace] ++
            ['\n']])]
        (dictSet emptyDict "A".data "x".data)
        [openBrace, openBrace] [closeBrace, closeBrace] =
      Except.ok [("~/f".data, "x\n".data)] :=
  rfl

/-- C6: for the identifier format brace-brace-percent-s-brace-brace and the
mapping Font to NotoSans and FontSize to 12, a template whose content is the
two newline-terminated lines containing the Font and FontSize tokens renders
exactly to NotoSans newline 12 newline, with no errors: every occurrence of
each expanded token on a line is replaced by its mapped value. -/
theorem c6_round_trip :
    defaultIdentifierFormat =
      [openBrace, openBrace] ++ "%s".data ++ [closeBrace, closeBrace] ∧
    renderLines
        (fun k => if k = "Font".data then some "NotoSans".data
          else if k = "FontSize".data then some "12".data else none)
        [openBrace, openBrace] [closeBrace, closeBrace]
        [[openBrace, openBrace] ++ "Font".data ++ [closeBrace, closeBrace] ++
           ['\n'],
         [openBrace, openBrace] ++ "FontSize".data ++ [closeBrace, closeBrace] ++
           ['\n']] =
      ("NotoSans\n12\n".data, []) :=
  ⟨rfl, rfl⟩

lemma discoverPairs_ok (home : Str) (lastSync : Nat) (ow : Bool)
    (target : Str → TargetInfo) (templates : List (Str × List Str))
    (h : ∀ t ∈ templates, target (home ++ t.1) ≠ TargetInfo.dir) :
    discoverPairs home lastSync ow target templates =
      Except.ok (eligiblePairs home lastSync ow target templates) := by
  rw [discoverPairs, eligiblePairs]
  suffices hgen : ∀ (ts : List (Str × List Str)),
      (∀ t ∈ ts, target (home ++ t.1) ≠ TargetInfo.dir) →
      ∀ (acc : List (Str × List Str)),
      ts.foldlM
        (fun acc t =>
          match target (home ++ t.1) with
          | TargetInfo.dir =>
            Except.error (SyncError.statusError (dirErrorMsg (home ++ t.1)))
          | TargetInfo.file m =>
            Except.ok
              (if m ≤ lastSync ∨ ow = true then acc ++ [(home ++ t.1, t.2)]
                else acc)
          | TargetInfo.missing =>
            Except.ok
              (if 0 ≤ lastSync ∨ ow = true then acc ++ [(home ++ t.1, t.2)]
                else acc))
        acc =
      Except.ok
        (ts.foldl
          (fun acc t =>
            match target (home ++ t.1) with
            | TargetInfo.dir => acc
            | TargetInfo.file m =>
              if m ≤ lastSync ∨ ow = true then acc ++ [(home ++ t.1, t.2)]
              else acc
            | TargetInfo.missing =>
              if 0 ≤ lastSync ∨ ow = true then acc ++ [(home ++ t.1, t.2)]
              else acc)
          acc) from hgen templates h []
  intro ts hts
  induction ts with
  | nil => intro acc; rfl
  | cons t ts ih =>
    intro acc
    have ht := hts t (List.mem_cons_self t ts)
    have hts2 : ∀ u ∈ ts, target (home ++ u.1) ≠ TargetInfo.dir :=
      fun u hu => hts u (List.mem_cons_of_mem t hu)
    rw [List.foldlM_cons, List.foldl_cons]
    cases hcase : target (home ++ t.1) with
    | dir => exact absurd hcase ht
    | file m =>
      simp only [hcase]
      rw [show ∀ (x : List (Str × List Str))
          (g : List (Str × List Str) →
            Except SyncError (List (Str × List Str))),
          Except.ok x >>= g = g x from fun _ _ => rfl]
      exact ih hts2 _
    | missing =>
      simp only [hcase]
      rw [show ∀ (x : List (Str × List Str))
          (g : List (Str × List Str) →
            Except SyncError (List (Str × List Str))),
          Except.ok x >>= g = g x from fun _ _ => rfl]
      exact ih hts2 _

lemma renderLine_errs (cv : Dict) (pre post line : Str) :
    (renderLine cv pre post line).2 =
      ((findIds pre post line).filter (fun n => (cv n).isNone)).map errMsg := by
  rw [renderLine]
  generalize findIds pre post line = L
  suffices hgen : ∀ (L : List Str) (acc : Str × List Str),
      (L.foldl
        (fun acc name =>
          match cv name with
          | none => (acc.1, acc.2 ++ [errMsg name])
          | some v => (replaceAll acc.1 (pre ++ name ++ post) v, acc.2))
        acc).2 =
      acc.2 ++ (L.filter (fun n => (cv n).isNone)).map errMsg by
    rw [hgen L (line, [])]
    rfl
  intro L
  induction L with
  | nil => intro acc; simp
  | cons n L ih =>
    intro acc
    rw [List.foldl_cons]
    cases hcv : cv n with
    | none =>
      simp only [hcv, List.filter_cons, Option.isNone_none]
      rw [ih]
      simp
    | some v =>
      simp only [hcv, List.filter_cons, Option.isNone_some]
      rw [ih]
      simp

lemma renderLines_errs (cv : Dict) (pre post : Str) (ls : List Str) :
    (renderLines cv pre post ls).2 =
      ls.flatMap (fun l =>
        ((findIds pre post l).filter (fun n => (cv n).isNone)).map errMsg) := by
  rw [renderLines]
  suffices hgen : ∀ (ls : List Str) (acc : Str × List Str),
      (ls.foldl
        (fun acc line =>
          let r := renderLine cv pre post line
          (acc.1 ++ r.1, acc.2 ++ r.2))
        acc).2 =
      acc.2 ++ ls.flatMap (fun l =>
        ((findIds pre post l).filter (fun n => (cv n).isNone)).map errMsg) by
    rw [hgen ls ([], [])]
    rfl
  intro ls
  induction ls with
  | nil => intro acc; simp
  | cons l ls ih =>
    intro acc
    rw [List.foldl_cons, List.flatMap_cons]
    rw [ih]
    simp [renderLine_errs]

lemma syncRender_errs (cv : Dict) (pre post : Str)
    (pairs : List (Str × List Str)) :
    (syncRender cv pre post pairs).2 =
      (missingNames cv pre post pairs).map errMsg := by
  rw [syncRender, missingNames]
  suffices hgen : ∀ (pairs : List (Str × List Str))
      (acc : List (Str × Str) × List Str),
      (pairs.foldl
        (fun acc p =>
          let r := renderLines cv pre post p.2
          (acc.1 ++ [(p.1, r.1)], acc.2 ++ r.2))
        acc).2 =
      acc.2 ++ (pairs.flatMap (fun p =>
        p.2.flatMap (fun l =>
          (findIds pre post l).filter (fun n => (cv n).isNone)))).map errMsg by
    rw [hgen pairs ([], [])]
    rfl
  intro pairs
  induction pairs with
  | nil => intro acc; simp
  | cons p ps ih =>
    intro acc
    rw [List.foldl_cons, List.flatMap_cons]
    rw [ih]
    simp [renderLines_errs, List.map_append, List.map_flatMap]

/-- C1: if any eligible template references an identifier absent from the
merged config values, the sync raises `InputError` carrying one message per
missing occurrence (so every missing identifier is named), and publishes no
move: no target file is modified for any pair in the batch. -/
theorem c1_all_or_nothing (overwrite : Bool) (raw : Dict) (lastSync : Nat)
    (home : Str) (target : Str → TargetInfo)
    (templates : List (Str × List Str)) (cv : Dict) (pre post : Str)
    (hdir : ∀ t ∈ templates, target (home ++ t.1) ≠ TargetInfo.dir)
    (hmiss : missingNames cv pre post
      (eligiblePairs home lastSync (overwriteSource overwrite raw) target
        templates) ≠ []) :
    SyncCommand.main overwrite raw lastSync home target templates cv pre
        post =
      Except.error (SyncError.inputError
        ((missingNames cv pre post
          (eligiblePairs home lastSync (overwriteSource overwrite raw) target
            templates)).map errMsg)) ∧
    ∀ n ∈ missingNames cv pre post
        (eligiblePairs home lastSync (overwriteSource overwrite raw) target
          templates),
      errMsg n ∈ (missingNames cv pre post
        (eligiblePairs home lastSync (overwriteSource overwrite raw) target
          templates)).map errMsg := by
  constructor
  · rw [SyncCommand.main,
      discoverPairs_ok home lastSync (overwriteSource overwrite raw) target
        templates hdir]
    simp only [syncRender_errs]
    rw [if_pos]
    intro hc
    exact hmiss (List.map_eq_nil_iff.mp hc)
  · intro n hn
    exact List.mem_map_of_mem errMsg hn

/-- Witness for C1: one eligible template referencing the absent identifier
`A`; the sync fails with the message naming `A` and publishes nothing. -/
theorem c1_all_or_nothing_witness :
    SyncCommand.main false emptyDict 0 "~/".data (fun _ => TargetInfo.file 0)
        [("f".data,
          [[openBrace, openBrace] ++ "A".data ++ [closeBrace, closeBrace] ++
            ['\n']])] emptyDict
        [openBrace, openBrace] [closeBrace, closeBrace] =
      Except.error (SyncError.inputError
        ((missingNames emptyDict [openBrace, openBrace]
          [closeBrace, closeBrace]
          (eligiblePairs "~/".data 0 (overwriteSource false emptyDict)
            (fun _ => TargetInfo.file 0)
            [("f".data,
              [[openBrace, openBrace] ++ "A".data ++ [closeBrace, closeBrace] ++
                ['\n']])])).map errMsg)) ∧
    ∀ n ∈ missingNames emptyDict [openBrace, openBrace]
        [closeBrace, closeBrace]
        (eligiblePairs "~/".data 0 (overwriteSource false emptyDict)
          (fun _ => TargetInfo.file 0)
          [("f".data,
            [[openBrace, openBrace] ++ "A".data ++ [closeBrace, closeBrace] ++
              ['\n']])]),
      errMsg n ∈ (missingNames emptyDict [openBrace, openBrace]
        [closeBrace, closeBrace]
        (eligiblePairs "~/".data 0 (overwriteSource false emptyDict)
          (fun _ => TargetInfo.file 0)
          [("f".data,
            [[openBrace, openBrace] ++ "A".data ++ [closeBrace, closeBrace] ++
              ['\n']])])).map errMsg :=
  c1_all_or_nothing false emptyDict 0 "~/".data (fun _ => TargetInfo.file 0)
    [("f".data,
      [[openBrace, openBrace] ++ "A".data ++ [closeBrace, closeBrace] ++
        ['\n']])] emptyDict [openBrace, openBrace] [closeBrace, closeBrace]
    (by decide) (by decide)

lemma syncConfigValues_cons (c : Dict) (cs : List Dict) :
    syncConfigValues (c :: cs) = dictUpdate (syncConfigValues cs) c := by
  rw [syncConfigValues, syncConfigValues, List.reverse_cons, List.foldl_append]
  rfl

/-- C3 counterexample: with three enabled sources all defining `K` — `C`
(value `"c"`, highest priority), `B` (value `"b"`), `A` (value `"a"`,
lowest) — the pair (A lower, B higher) defines `K` with different values,
yet the effective mapping gives `C`'s value, not `B`'s: the claim as stated,
quantified over every pair, fails. -/
theorem c3_priority_override_counterexample :
    syncConfigValues
        [dictSet emptyDict "K".data "c".data,
         dictSet emptyDict "K".data "b".data,
         dictSet emptyDict "K".data "a".data] "K".data = some "c".data ∧
    dictSet emptyDict "K".data "b".data "K".data = some "b".data ∧
    dictSet emptyDict "K".data "a".data "K".data = some "a".data ∧
    some "c".data ≠ some "b".data :=
  ⟨rfl, rfl, rfl, by decide⟩

/-- C3 as amended: for enabled sources A (lower priority) and B (higher
priority) both defining key `K` with different values, *provided no source
of higher priority than B also defines `K`*, the effective mapping maps `K`
to B's value; and the mapping built by `UserFiles.get_config_values` is
unchanged under any permutation of the disk scan order of the config
directory, so the result is independent of the order in which the files
appear on disk. -/
theorem c3_priority_override :
    (∀ (xs : List Dict) (b : Dict) (ys : List Dict) (a : Dict)
      (zs : List Dict) (k va vb : Str),
      a k = some va → b k = some vb → (∀ c ∈ xs, c k = none) →
      syncConfigValues (xs ++ b :: (ys ++ a :: zs)) k = some vb) ∧
    (∀ (fs : Str → Option (List Str)) (configDir : Str)
      (disk disk' names : List Str), disk.Perm disk' →
      UserFiles.get_config_values fs configDir disk names =
        UserFiles.get_config_values fs configDir disk' names) := by
  constructor
  · intro xs b ys a zs k va vb ha hb hxs
    induction xs with
    | nil =>
      rw [List.nil_append, syncConfigValues_cons]
      simp only [dictUpdate, hb]
    | cons x xs ih =>
      have hx := hxs x (List.mem_cons_self x xs)
      have hxs2 : ∀ c ∈ xs, c k = none :=
        fun c hc => hxs c (List.mem_cons_of_mem x hc)
      rw [List.cons_append, syncConfigValues_cons]
      simp only [dictUpdate, hx]
      exact ih hxs2
  · intro fs configDir disk disk' names hperm
    rw [UserFiles.get_config_values, UserFiles.get_config_values,
      UserFiles.get_configs, UserFiles.get_configs,
      List.filter_congr (fun p _ => decide_eq_decide.mpr hperm.mem_iff)]

/-- Witness for C3 as amended: two sources, B above A, both defining `K`;
and a two-element disk listing permuted. -/
theorem c3_priority_override_witness :
    (syncConfigValues
        ([] ++ dictSet emptyDict "K".data "b".data ::
          ([] ++ dictSet emptyDict "K".data "a".data :: [])) "K".data =
      some "b".data) ∧
    UserFiles.get_config_values (fun _ => some []) "cfg".data
        ["p".data, "q".data] ["x".data] =
      UserFiles.get_config_values (fun _ => some []) "cfg".data
        ["q".data, "p".data] ["x".data] :=
  ⟨c3_priority_override.1 [] (dictSet emptyDict "K".data "b".data) []
     (dictSet emptyDict "K".data "a".data) [] "K".data "a".data "b".data
     (by decide) (by decide) (by decide),
   c3_priority_override.2 (fun _ => some []) "cfg".data
     ["p".data, "q".data] ["q".data, "p".data] ["x".data] (by decide)⟩

lemma add_ext_normalize (n : Str) (hn : ¬ CONFIG_EXT <:+ n) (arg : Str)
    (harg : arg = n ∨ arg = n ++ CONFIG_EXT) :
    add_ext arg CONFIG_EXT = n ++ CONFIG_EXT := by
  have he : CONFIG_EXT ≠ [] := by decide
  cases harg with
  | inl h =>
    rw [h, add_ext_of_ne n CONFIG_EXT he, rm_ext_of_not_suffix n CONFIG_EXT hn]
  | inr h =>
    rw [h, add_ext_of_ne _ CONFIG_EXT he, rm_ext_append n CONFIG_EXT he]

/-- C5: for a role whose directory holds the variant files named in
`entries`, switching to a variant name given either bare or with the config
extension normalizes to the same file name; when that variant file exists in
the role's directory the switch succeeds and the selection pointer is set to
exactly that variant file's path inside the role directory; when it does
not, `InputError` is raised with the no-such-config message and the existing
pointer is left unchanged. -/
theorem c5_role_switch (entries : List (Str × Bool)) (rolePath : Str)
    (link : Option Str) (n : Str) (hn : ¬ CONFIG_EXT <:+ n) (arg : Str)
    (harg : arg = n ∨ arg = n ++ CONFIG_EXT) :
    (n ++ CONFIG_EXT ∈ roleConfigsOf entries →
      RoleCommand.switch entries rolePath arg =
        Except.ok (pathJoin rolePath (n ++ CONFIG_EXT)) ∧
      RoleCommand.switchFinalLink entries rolePath link arg =
        some (pathJoin rolePath (n ++ CONFIG_EXT))) ∧
    (n ++ CONFIG_EXT ∉ roleConfigsOf entries →
      RoleCommand.switch entries rolePath arg =
        Except.error (noSuchConfigMsg (n ++ CONFIG_EXT)) ∧
      RoleCommand.switchFinalLink entries rolePath link arg = link) := by
  have hnorm := add_ext_normalize n hn arg harg
  constructor
  · intro hmem
    have hsw : RoleCommand.switch entries rolePath arg =
        Except.ok (pathJoin rolePath (n ++ CONFIG_EXT)) := by
      rw [RoleCommand.switch]
      simp only [hnorm]
      rw [if_pos hmem]
    exact ⟨hsw, by rw [RoleCommand.switchFinalLink, hsw]⟩
  · intro hmem
    have hsw : RoleCommand.switch entries rolePath arg =
        Except.error (noSuchConfigMsg (n ++ CONFIG_EXT)) := by
      rw [RoleCommand.switch]
      simp only [hnorm]
      rw [if_neg hmem]
    exact ⟨hsw, by rw [RoleCommand.switchFinalLink, hsw]⟩

/-- Witness for C5: a role directory holding `zenburn.conf` and
`solarized.conf`; switching to `zenburn` (given bare) points the link at the
variant file, and switching to the nonexistent `nope` (given with its
extension) errors and leaves the link untouched. -/
theorem c5_role_switch_witness :
    (RoleCommand.switch
        [("zenburn.conf".data, true), ("solarized.conf".data, true)]
        "cfg/color".data "zenburn".data =
      Except.ok (pathJoin "cfg/color".data ("zenburn".data ++ CONFIG_EXT)) ∧
      RoleCommand.switchFinalLink
        [("zenburn.conf".data, true), ("solarized.conf".data, true)]
        "cfg/color".data (some "old".data) "zenburn".data =
      some (pathJoin "cfg/color".data ("zenburn".data ++ CONFIG_EXT))) ∧
    (RoleCommand.switch
        [("zenburn.conf".data, true), ("solarized.conf".data, true)]
        "cfg/color".data ("nope".data ++ CONFIG_EXT) =
      Except.error (noSuchConfigMsg ("nope".data ++ CONFIG_EXT)) ∧
      RoleCommand.switchFinalLink
        [("zenburn.conf".data, true), ("solarized.conf".data, true)]
        "cfg/color".data (some "old".data) ("nope".data ++ CONFIG_EXT) =
      some "old".data) :=
  ⟨(c5_role_switch
      [("zenburn.conf".data, true), ("solarized.conf".data, true)]
      "cfg/color".data (some "old".data) "zenburn".data (by decide)
      "zenburn".data (Or.inl rfl)).1 (by decide),
   (c5_role_switch
      [("zenburn.conf".data, true), ("solarized.conf".data, true)]
      "cfg/color".data (some "old".data) "nope".data (by decide)
      ("nope".data ++ CONFIG_EXT) (Or.inr rfl)).2 (by decide)⟩

lemma get_configs_sub (configDir : Str) (diskPaths names : List Str) :
    ∀ p ∈ UserFiles.get_configs configDir diskPaths names, p ∈ diskPaths := by
  intro p hp
  rw [UserFiles.get_configs] at hp
  exact of_decide_eq_true (List.mem_filter.mp hp).2

lemma get_configs_filter (configDir : Str) (diskPaths names : List Str) :
    UserFiles.get_configs configDir diskPaths
        (names.filter (fun n =>
          decide (pathJoin configDir (add_ext n CONFIG_EXT) ∈ diskPaths))) =
      UserFiles.get_configs configDir diskPaths names := by
  rw [UserFiles.get_configs, UserFiles.get_configs,
    List.filter_map, List.filter_map, List.filter_filter]
  congr 1
  apply List.filter_congr
  intro n _
  exact Bool.and_self _

lemma foldlM_read_ok (fs : Str → Option (List Str)) :
    ∀ (ps : List Str), (∀ p ∈ ps, (fs p).isSome) → ∀ (acc : Dict),
      ∃ d, ps.foldlM
        (fun acc p => (ConfigFile.read fs p).map (fun d => dictUpdate acc d))
        acc = Except.ok d := by
  intro ps
  induction ps with
  | nil => exact fun _ acc => ⟨acc, rfl⟩
  | cons p ps ih =>
    intro h acc
    have hp : (fs p).isSome := h p (List.mem_cons_self p ps)
    have hps : ∀ q ∈ ps, (fs q).isSome :=
      fun q hq => h q (List.mem_cons_of_mem p hq)
    obtain ⟨ls, hls⟩ := Option.isSome_iff_exists.mp hp
    rw [List.foldlM_cons]
    have hread : ConfigFile.read fs p =
        Except.ok (ConfigFile.readLines emptyDict ls) := by
      rw [ConfigFile.read, hls]
    rw [hread]
    exact ih hps _

/-- C7: a priority-file entry that does not resolve to an enabled config
file found on disk is skipped silently by the config resolver
(`UserFiles.get_configs` / `get_config_values`): removing all such entries
from the priority list leaves the result unchanged, and as long as every
config file found on disk can be opened, building the effective mapping
succeeds — it neither fails nor raises on account of the unresolvable
entries. -/
theorem c7_unresolvable_entries_skipped (fs : Str → Option (List Str))
    (configDir : Str) (diskPaths names : List Str) :
    UserFiles.get_config_values fs configDir diskPaths names =
      UserFiles.get_config_values fs configDir diskPaths
        (names.filter (fun n =>
          decide (pathJoin configDir (add_ext n CONFIG_EXT) ∈ diskPaths))) ∧
    ((∀ p ∈ diskPaths, (fs p).isSome) →
      ∃ d, UserFiles.get_config_values fs configDir diskPaths names =
        Except.ok d) := by
  constructor
  · rw [UserFiles.get_config_values, UserFiles.get_config_values,
      get_configs_filter]
  · intro h
    rw [UserFiles.get_config_values]
    apply foldlM_read_ok fs
    intro p hp
    exact h p (get_configs_sub configDir diskPaths names p
      (List.mem_reverse.mp hp))

/-- Witness for C7: the priority file lists `ghost` (no such config on disk)
and `real`; the resolver succeeds, and dropping the unresolvable entry
changes nothing. -/
theorem c7_unresolvable_entries_skipped_witness :
    (UserFiles.get_config_values (fun _ => some ["a=1".data]) "cfg".data
        [pathJoin "cfg".data ("real".data ++ CONFIG_EXT)]
        ["ghost".data, "real".data] =
      UserFiles.get_config_values (fun _ => some ["a=1".data]) "cfg".data
        [pathJoin "cfg".data ("real".data ++ CONFIG_EXT)]
        (["ghost".data, "real".data].filter (fun n =>
          decide (pathJoin "cfg".data (add_ext n CONFIG_EXT) ∈
            [pathJoin "cfg".data ("real".data ++ CONFIG_EXT)])))) ∧
    ∃ d, UserFiles.get_config_values (fun _ => some ["a=1".data]) "cfg".data
        [pathJoin "cfg".data ("real".data ++ CONFIG_EXT)]
        ["ghost".data, "real".data] = Except.ok d :=
  ⟨(c7_unresolvable_entries_skipped (fun _ => some ["a=1".data]) "cfg".data
      [pathJoin "cfg".data ("real".data ++ CONFIG_EXT)]
      ["ghost".data, "real".data]).1,
   (c7_unresolvable_entries_skipped (fun _ => some ["a=1".data]) "cfg".data
      [pathJoin "cfg".data ("real".data ++ CONFIG_EXT)]
      ["ghost".data, "real".data]).2 (fun _ _ => rfl)⟩

end Codot
